import Mathlib

/-!
Verification of the extraction engine of `nputop.py` (functions
`parse_device_section` and `parse_process_section`).

The Python code is shallowly embedded over `Str := List Char`.  Python
strings become `Str`; `str.split`, `str.strip`, `str.splitlines` and
friends are modelled by the executable functions below.  A Python
expression that can raise an uncaught exception (e.g. `int(tok)` on a
non-numeric token, or an out-of-range index) is modelled in the `Option`
monad: `none` means "an exception propagates out of the function".
Caught exceptions (the `try/except` blocks in the source and the bare
`except: continue` in the process parser) are modelled by the
corresponding default values, exactly as the source assigns them.

Modelling simplifications (noted where they matter): `splitlines` is
split on the newline character only; `int()` / `float()` accept an
optional sign and ASCII decimal digits (Python additionally accepts
underscores, unicode digits and float exponents - none occur in the
inputs considered here); `float` values are modelled as exact rationals.
-/

set_option maxRecDepth 20000

namespace Nputop

/-- Characters of a Python string. -/
abbrev Str := List Char

/-- Whitespace test used by Python `str.strip()` / `str.split()`. -/
def isWs (c : Char) : Bool := c.isWhitespace

/-- Python `s.strip()`: drop whitespace from both ends. -/
def pyStrip (s : Str) : Str :=
  ((s.dropWhile isWs).reverse.dropWhile isWs).reverse

/-- Python `s.strip("|")`: drop `'|'` characters from both ends. -/
def stripBars (s : Str) : Str :=
  ((s.dropWhile (· = '|')).reverse.dropWhile (· = '|')).reverse

/-- Python `s.split(sep)` for a one-character separator: split at every
occurrence, keeping empty pieces (never returns `[]`). -/
def splitOnChar (sep : Char) : Str → List Str
  | [] => [[]]
  | c :: cs =>
    if c = sep then [] :: splitOnChar sep cs
    else
      match splitOnChar sep cs with
      | [] => [[c]]
      | t :: ts => (c :: t) :: ts

/-- Python `s.splitlines()`, modelled as splitting on `'\n'` (a final
newline produces no trailing empty line, as in Python). -/
def pySplitlines (s : Str) : List Str :=
  let ps := splitOnChar '\n' s
  if ps.getLast? = some [] then ps.dropLast else ps

/-- Python `s.split()` (no argument): whitespace-separated tokens, no
empty tokens. -/
def pySplitWs : Str → List Str
  | [] => []
  | [c] => if isWs c then [] else [[c]]
  | c :: d :: cs =>
    if isWs c then pySplitWs (d :: cs)
    else
      match pySplitWs (d :: cs) with
      | [] => [[c]]
      | t :: ts => if isWs d then [c] :: t :: ts else (c :: t) :: ts

/-- Python `" ".join(ts)`. -/
def joinSpace : List Str → Str
  | [] => []
  | [t] => t
  | t :: ts => t ++ ' ' :: joinSpace ts

/-- The source's `[f.strip() for f in line.split("|") if f.strip()]`. -/
def pyFields (line : Str) : List Str :=
  ((splitOnChar '|' line).map pyStrip).filter (fun f => !f.isEmpty)

/-- The source's `line.strip().strip("|").strip()`. -/
def contentOf (line : Str) : Str := pyStrip (stripBars (pyStrip line))

/-- A nonempty all-ASCII-digit string. -/
def decDigits (s : Str) : Bool := !s.isEmpty && s.all Char.isDigit

/-- Numeric value of a digit string. -/
def digitsVal (s : Str) : Nat := s.foldl (fun n c => n * 10 + (c.toNat - 48)) 0

/-- Python `int(s)`: optional surrounding whitespace, optional sign,
then decimal digits; `none` models a raised `ValueError`. -/
def pyInt? (s : Str) : Option Int :=
  match pyStrip s with
  | '+' :: ds => if decDigits ds then some (Int.ofNat (digitsVal ds)) else none
  | '-' :: ds => if decDigits ds then some (-(Int.ofNat (digitsVal ds))) else none
  | ds => if decDigits ds then some (Int.ofNat (digitsVal ds)) else none

/-- Python `float(s)` on plain decimal notation, as an exact rational
(built with `mkRat` from the digit values, so `"a.b"` denotes
`(a * 10^k + b) / 10^k` with `k` fraction digits); `none` models a
raised `ValueError`. -/
def pyFloat? (s : Str) : Option ℚ :=
  let sv : Int × Str :=
    match pyStrip s with
    | '+' :: r => (1, r)
    | '-' :: r => (-1, r)
    | r => (1, r)
  match splitOnChar '.' sv.2 with
  | [ip] => if decDigits ip then some (mkRat (sv.1 * Int.ofNat (digitsVal ip)) 1) else none
  | [ip, fp] =>
    if (!ip.isEmpty || !fp.isEmpty) && ip.all Char.isDigit && fp.all Char.isDigit then
      some (mkRat (sv.1 * Int.ofNat (digitsVal ip * 10 ^ fp.length + digitsVal fp))
        (10 ^ fp.length))
    else none
  | _ => none

/-- The section marker `"Process id"`. -/
def pidMarker : Str := "Process id".toList

/-- The process-table header marker `"Process memory(MB)"`. -/
def memMarker : Str := "Process memory(MB)".toList

/-- The source's `output.split("Process id")[0]`: the text before the first
occurrence of `pat` (the whole text when `pat` does not occur). -/
def takeBefore (pat : Str) : Str → Str
  | [] => []
  | c :: cs => if pat.isPrefixOf (c :: cs) then [] else c :: takeBefore pat cs

/-- Python `pat in s` (substring test). -/
def containsSub (pat : Str) (s : Str) : Bool :=
  s.tails.any (fun t => pat.isPrefixOf t)

/-! ## Device section (`parse_device_section`) -/

/-- One parsed device record (the dict built at the end of the loop body
of `parse_device_section`). -/
structure DeviceRecord where
  id : Int
  name : Str
  health : Str
  power : ℚ
  temp : Int
  hugepages_used : Int
  hugepages_total : Int
  chip : Str
  bus_id : Str
  ai_core : Int
  mem_used : Int
  mem_total : Int
  hbm_used : Int
  hbm_total : Int
deriving DecidableEq, Repr

/-- The candidate-data-line test: starts with `'|'` and the stripped
content begins with a decimal digit. -/
def isCandidate (line : Str) : Bool :=
  match line with
  | '|' :: _ =>
    match contentOf line with
    | [] => false
    | c :: _ => c.isDigit
  | _ => false

/-- The candidate data lines of the device section of a report. -/
def dataLines (output : Str) : List Str :=
  (pySplitlines (takeBefore pidMarker output)).filter isCandidate

/-- Consecutive pairing: `for i in range(0, len, 2)` with a break when
`i + 1 >= len` (a trailing unpaired element is dropped). -/
def pairUp : List α → List (α × α)
  | a :: b :: rest => (a, b) :: pairUp rest
  | _ => []

/-- Fields of `parse_device_section` taken from line A of a pair. -/
structure Line1Data where
  npu_id : Int
  name : Str
  health : Str
  power : ℚ
  temp : Int
  huge_used : Int
  huge_total : Int
deriving DecidableEq, Repr

/-- Fields of `parse_device_section` taken from line B of a pair. -/
structure Line2Data where
  chip : Str
  bus_id : Str
  ai_core : Int
  mem_used : Int
  mem_total : Int
  hbm_used : Int
  hbm_total : Int
deriving DecidableEq, Repr

/-- The source's `power = float(tokens_power[0]) if tokens_power else 0.0`:
`none` models the uncaught `ValueError` of the unguarded `float()`. -/
def powerOf (tokens_power : List Str) : Option ℚ :=
  match tokens_power[0]? with
  | none => some 0
  | some t => pyFloat? t

/-- The source's `temp = int(tokens_power[1]) if len(tokens_power) > 1 else 0`:
`none` models the uncaught `ValueError` of the unguarded `int()`. -/
def tempOf (tokens_power : List Str) : Option Int :=
  match tokens_power[1]? with
  | none => some 0
  | some t => pyInt? t

/-- The hugepages `try` block.  A failure on `tokens_power[2]` leaves
both values `0`; a failure on `tokens_power[4]` alone keeps the
already-assigned `huge_used` and leaves `huge_total = 0` (both
exceptions are caught by the source). -/
def hugepagesOf (tokens_power : List Str) : Int × Int :=
  if 5 ≤ tokens_power.length then
    match pyInt? (tokens_power.getD 2 []) with
    | none => (0, 0)
    | some u => (u, (pyInt? (tokens_power.getD 4 [])).getD 0)
  else (0, 0)

/-- Line-A extraction.  `none` models an uncaught exception: the
unguarded `int(tokens0[0])`, `fields1[1]`, `fields1[2]`,
`float(tokens_power[0])` and `int(tokens_power[1])` of the source. -/
def parseLine1 (line1 : Str) : Option Line1Data :=
  let fields1 := pyFields line1
  match fields1[0]? with
  | none => none
  | some f0 =>
    let tokens0 := pySplitWs f0
    match tokens0[0]? with
    | none => none
    | some t0 =>
      match pyInt? t0 with
      | none => none
      | some npu_id =>
        let name := if 1 < tokens0.length then joinSpace (tokens0.drop 1) else []
        match fields1[1]?, fields1[2]? with
        | some health, some f2 =>
          let tokens_power := pySplitWs f2
          match powerOf tokens_power with
          | none => none
          | some power =>
            match tempOf tokens_power with
            | none => none
            | some temp =>
              some ⟨npu_id, name, health, power, temp,
                (hugepagesOf tokens_power).1, (hugepagesOf tokens_power).2⟩
        | _, _ => none

/-- The glued-token recovery applied to one raw token: a token ending in
`'/'` with length > 1 is split into its part before the slash and a
lone `"/"`. -/
def fixOne (t : Str) : List Str :=
  if t.getLast? = some '/' ∧ 1 < t.length then [t.dropLast, ['/']] else [t]

/-- The glued-token recovery pass over the token list of line B's third
segment (the `for token in tokens_line2_tmp` loop). -/
def fixTokens (ts : List Str) : List Str := ts.flatMap fixOne

/-- The sequential `try` block over `tokens_line2`: each `int()` call is
attempted in order; the first failure aborts the block, keeping the
values already assigned and leaving the rest `0`. -/
def parseLine2Vals (t0 t1 t3 t4 t6 : Str) : Int × Int × Int × Int × Int :=
  match pyInt? t0 with
  | none => (0, 0, 0, 0, 0)
  | some a =>
    match pyInt? t1 with
    | none => (a, 0, 0, 0, 0)
    | some mu =>
      match pyInt? t3 with
      | none => (a, mu, 0, 0, 0)
      | some mt =>
        match pyInt? t4 with
        | none => (a, mu, mt, 0, 0)
        | some hu => (a, mu, mt, hu, (pyInt? t6).getD 0)

/-- Line-B extraction.  `none` models an uncaught `IndexError` on
`fields2[0]`, `fields2[1]` or `fields2[2]`. -/
def parseLine2 (line2 : Str) : Option Line2Data :=
  let fields2 := pyFields line2
  match fields2[0]?, fields2[1]?, fields2[2]? with
  | some chip, some bus_id, some f2 =>
    let tokens_line2 := fixTokens (pySplitWs f2)
    let v :=
      if 7 ≤ tokens_line2.length then
        parseLine2Vals (tokens_line2.getD 0 []) (tokens_line2.getD 1 [])
          (tokens_line2.getD 3 []) (tokens_line2.getD 4 []) (tokens_line2.getD 6 [])
      else ((0 : Int), (0 : Int), (0 : Int), (0 : Int), (0 : Int))
    some ⟨chip, bus_id, v.1, v.2.1, v.2.2.1, v.2.2.2.1, v.2.2.2.2⟩
  | _, _, _ => none

/-- One loop iteration of `parse_device_section`: build the device dict
from a pair of candidate lines; `none` models an uncaught exception. -/
def parseDevicePair (line1 line2 : Str) : Option DeviceRecord :=
  match parseLine1 line1, parseLine2 line2 with
  | some a, some b =>
    some ⟨a.npu_id, a.name, a.health, a.power, a.temp, a.huge_used, a.huge_total,
          b.chip, b.bus_id, b.ai_core, b.mem_used, b.mem_total, b.hbm_used, b.hbm_total⟩
  | _, _ => none

/-- Effectful map: the `devices.append(...)` loop; the first `none`
(uncaught exception) aborts the whole function. -/
def mapOpt (f : α → Option β) : List α → Option (List β)
  | [] => some []
  | a :: l =>
    match f a, mapOpt f l with
    | some b, some bs => some (b :: bs)
    | _, _ => none

/-- The function `parse_device_section`: split off the device section, keep candidate
data lines, consume them in consecutive pairs, build a record per pair.
`none` models an exception propagating out of the function. -/
def parseDeviceSection (output : Str) : Option (List DeviceRecord) :=
  mapOpt (fun p => parseDevicePair p.1 p.2) (pairUp (dataLines output))

/-! ## Process section (`parse_process_section`) -/

/-- One parsed process record (the dict appended by
`parse_process_section`). -/
structure ProcRecord where
  pid : Str
  name : Str
  mem : Int
deriving DecidableEq, Repr

/-- The process map: a Python dict from device id to process list,
modelled as an insertion-ordered association list. -/
abbrev PMap := List (Int × List ProcRecord)

/-- Python dict lookup. -/
def lookupA (k : Int) : PMap → Option (List ProcRecord)
  | [] => none
  | (k', v) :: rest => if k' = k then some v else lookupA k rest

/-- Python `d[k] = v`: overwrite in place, or insert at the end. -/
def setEntry : PMap → Int → List ProcRecord → PMap
  | [], k, v => [(k, v)]
  | (k', v') :: rest, k, v =>
    if k' = k then (k, v) :: rest else (k', v') :: setEntry rest k v

/-- Python `d.setdefault(k, []).append(p)`: append to the existing list,
or insert `(k, [p])` at the end. -/
def setdefaultAppend : PMap → Int → ProcRecord → PMap
  | [], k, p => [(k, [p])]
  | (k', v') :: rest, k, p =>
    if k' = k then (k, v' ++ [p]) :: rest else (k', v') :: setdefaultAppend rest k p

/-- The table-header test: a line containing both `"Process id"` and
`"Process memory(MB)"`. -/
def bothMarkers (l : Str) : Bool :=
  containsSub pidMarker l && containsSub memMarker l

/-- The source's `set(line.strip()) <= set("+-=")`: a pure border line. -/
def isBorder (l : Str) : Bool :=
  (pyStrip l).all (fun c => c = '+' || c = '-' || c = '=')

/-- The line-collection state machine of `parse_process_section`: before
the header every line is skipped (the header line itself is consumed by
the transition); after it, lines not starting with `'|'` and border
lines are skipped, the rest are collected. -/
def collectProcessLines : Bool → List Str → List Str
  | _, [] => []
  | inSec, l :: ls =>
    if bothMarkers l then collectProcessLines true ls
    else if inSec then
      if !(match l with | '|' :: _ => true | _ => false) then collectProcessLines inSec ls
      else if isBorder l then collectProcessLines inSec ls
      else l :: collectProcessLines inSec ls
    else collectProcessLines inSec ls

/-- The idle-sentinel text `"No running processes found in NPU"`. -/
def npuNoProcPat : Str := "No running processes found in NPU".toList

/-- One attempt of the regex
`No running processes found in NPU\s+(\d+)` at the start of `s`:
the literal text, then at least one whitespace character (matched
greedily), then at least one digit (matched greedily, giving the id). -/
def matchNpuAt (s : Str) : Option Int :=
  if npuNoProcPat.isPrefixOf s then
    let rest := s.drop npuNoProcPat.length
    let ws := rest.takeWhile isWs
    let ds := (rest.drop ws.length).takeWhile Char.isDigit
    if !ws.isEmpty && !ds.isEmpty then some (Int.ofNat (digitsVal ds)) else none
  else none

/-- Python `re.search` of the sentinel pattern: the leftmost position where the
pattern matches. -/
def sentinelFind : Str → Option Int
  | [] => none
  | c :: cs =>
    match matchNpuAt (c :: cs) with
    | some n => some n
    | none => sentinelFind cs

/-- One iteration of the `for line in process_lines` loop: an idle
sentinel overwrites the device's entry with `[]` (a failed regex skips
the line); otherwise a row with at least 4 fields whose first token of
field 0 parses as an integer appends a record, the memory field
defaulting to `0` on parse failure; all parse failures here are caught
by the source's `try/except`, so no exception escapes. -/
def procStep (m : PMap) (line : Str) : PMap :=
  let content := contentOf line
  if npuNoProcPat.isPrefixOf content then
    match sentinelFind content with
    | some n => setEntry m n []
    | none => m
  else
    let fields := pyFields line
    if fields.length < 4 then m
    else
      match pyInt? ((pySplitWs (fields.getD 0 [])).getD 0 []) with
      | none => m
      | some n =>
        setdefaultAppend m n
          ⟨fields.getD 1 [], fields.getD 2 [], (pyInt? (fields.getD 3 [])).getD 0⟩

/-- The function `parse_process_section`: collect the in-table lines and fold the
row handler over them.  Total: the source catches every parse failure
in this function. -/
def parseProcessSection (output : Str) : PMap :=
  (collectProcessLines false (pySplitlines output)).foldl procStep []

/-! ## Concrete inputs used by the theorems -/

/-- The spec's worked-example line A. -/
def exLineA : Str :=
  "| 0     910B4               | OK            | 88.2        39                0    / 0             |".toList

/-- The spec's worked-example line B. -/
def exLineB : Str :=
  "| 0                         | 0000:C1:00.0  | 0           0    / 0          3043 / 32768         |".toList

/-- The spec's worked example: line A and line B as one report. -/
def exReport : Str :=
  ("| 0     910B4               | OK            | 88.2        39                0    / 0             |"
    ++ "\n"
    ++ "| 0                         | 0000:C1:00.0  | 0           0    / 0          3043 / 32768         |").toList

/-- The record the worked example must produce. -/
def exRecord : DeviceRecord :=
  { id := 0, name := "910B4".toList, health := "OK".toList, power := mkRat 441 5, temp := 39,
    hugepages_used := 0, hugepages_total := 0, chip := "0".toList,
    bus_id := "0000:C1:00.0".toList, ai_core := 0, mem_used := 0, mem_total := 0,
    hbm_used := 3043, hbm_total := 32768 }

/-- A report with two candidate pairs: the first well formed, the
second with id token `"1x"`, which `int()` rejects. -/
def badIdReport : Str :=
  "| 0 a | OK | 1.0 2 |\n| 0 | b | 0 |\n| 1x | OK | 1.0 2 |\n| 1 | d | 0 |".toList

/-- The same report with the malformed pair removed. -/
def goodPairReport : Str :=
  "| 0 a | OK | 1.0 2 |\n| 0 | b | 0 |".toList

/-- A report whose first candidate line has a single segment, so that
`fields1[1]` raises `IndexError`. -/
def shortFieldsReport : Str :=
  "| 7 dev |\n| 0 | b | 0 |".toList

/-- A line A to pair with the glued / spaced line B variants. -/
def gluedLineA : Str := "| 0 x | OK | 1.0 2 |".toList

/-- A line B whose third segment is `"0 0 / 0 30431/ 32768"` (glued). -/
def gluedLineB1 : Str := "| 0 | b | 0 0 / 0 30431/ 32768 |".toList

/-- A line B whose third segment is `"0 0 / 0 30431 / 32768"` (spaced). -/
def gluedLineB2 : Str := "| 0 | b | 0 0 / 0 30431 / 32768 |".toList

/-- A device section with three candidate data lines. -/
def threeLineReport : Str :=
  "| 0 a | OK | 1.0 2 |\n| 0 | b | 0 |\n| 1 c | OK | 1.0 2 |".toList

/-- The one record built from the first two lines of `threeLineReport`. -/
def oddRec : DeviceRecord :=
  { id := 0, name := "a".toList, health := "OK".toList, power := 1, temp := 2,
    hugepages_used := 0, hugepages_total := 0, chip := "0".toList, bus_id := "b".toList,
    ai_core := 0, mem_used := 0, mem_total := 0, hbm_used := 0, hbm_total := 0 }

/-- A process section holding only the idle sentinel for device 2. -/
def sentinelReport : Str :=
  "| Process id  | Process memory(MB) |\n| No running processes found in NPU 2 |".toList

/-- A concrete process-table row for device 0. -/
def procRowLine : Str := "| 0       0 | 2488494 | python3.9 | 99 |".toList

/-- A report whose third line contains `"Process id"` but not
`"Process memory(MB)"`, with two candidate device pairs: one before the
marker line and one after it. -/
def asymReport : Str :=
  ("| 0 a | OK | 1.0 2 |\n| 0 | b | 0 |\nProcess id stuff\n"
    ++ "| 1 c | OK | 1.0 2 |\n| 1 | d | 0 |").toList

/-- The leading whitespace token of line A's first segment (the
`tokens0[0]` whose `int()` the source does not guard). -/
def firstIdToken (line : Str) : Option Str :=
  match (pyFields line)[0]? with
  | none => none
  | some f0 => (pySplitWs f0)[0]?

/-! ## Helper lemmas -/

theorem mapOpt_eq_none_of_mem {f : α → Option β} {l : List α} {a : α}
    (hmem : a ∈ l) (hfa : f a = none) : mapOpt f l = none := by
  induction l with
  | nil => cases hmem
  | cons b t ih =>
    rcases List.mem_cons.mp hmem with h | h
    · subst h
      simp only [mapOpt, hfa]
    · cases hfb : f b <;> simp only [mapOpt, hfb, ih h]

theorem mapOpt_length {f : α → Option β} :
    ∀ {l : List α} {ys : List β}, mapOpt f l = some ys → ys.length = l.length := by
  intro l
  induction l with
  | nil => intro ys h; simp only [mapOpt, Option.some.injEq] at h; subst h; rfl
  | cons b t ih =>
    intro ys h
    simp only [mapOpt] at h
    cases hfb : f b with
    | none => rw [hfb] at h; cases h
    | some y =>
      rw [hfb] at h
      cases hrest : mapOpt f t with
      | none => rw [hrest] at h; cases h
      | some zs =>
        rw [hrest] at h
        cases h
        simp [ih hrest]

theorem pairUp_length : ∀ (l : List α), (pairUp l).length = l.length / 2
  | [] => by simp [pairUp]
  | [_] => by simp [pairUp]
  | _ :: _ :: r => by
    simp only [pairUp, List.length_cons, pairUp_length r]
    omega

theorem lookupA_setEntry_self (m : PMap) (n : Int) (v : List ProcRecord) :
    lookupA n (setEntry m n v) = some v := by
  induction m with
  | nil => simp [setEntry, lookupA]
  | cons kv rest ih =>
    obtain ⟨k', v'⟩ := kv
    by_cases h : k' = n <;> simp [setEntry, lookupA, h, ih]

theorem lookupA_setdefaultAppend_self (m : PMap) (n : Int) (p : ProcRecord) :
    lookupA n (setdefaultAppend m n p) = some ((lookupA n m).getD [] ++ [p]) := by
  induction m with
  | nil => simp [setdefaultAppend, lookupA]
  | cons kv rest ih =>
    obtain ⟨k', v'⟩ := kv
    by_cases h : k' = n <;> simp [setdefaultAppend, lookupA, h, ih]

theorem takeBefore_isPre (pat : Str) : ∀ l : Str, takeBefore pat l <+: l := by
  intro l
  induction l with
  | nil => simp [takeBefore]
  | cons c cs ih =>
    by_cases h : pat.isPrefixOf (c :: cs)
    · simp [takeBefore, h]
    · simp only [takeBefore, h, if_false]
      exact List.cons_prefix_cons.mpr ⟨rfl, ih⟩

theorem takeBefore_idem (pat : Str) : ∀ l : Str,
    takeBefore pat (takeBefore pat l) = takeBefore pat l := by
  intro l
  induction l with
  | nil => rfl
  | cons c cs ih =>
    by_cases h : pat.isPrefixOf (c :: cs)
    · simp [takeBefore, h]
    · have hcut : takeBefore pat (c :: cs) = c :: takeBefore pat cs := by
        simp [takeBefore, h]
      have hnp : ¬ pat.isPrefixOf (c :: takeBefore pat cs) := by
        intro hp
        exact h (List.isPrefixOf_iff_prefix.mpr
          ((List.isPrefixOf_iff_prefix.mp hp).trans
            (List.cons_prefix_cons.mpr ⟨rfl, takeBefore_isPre pat cs⟩)))
      rw [hcut]
      simp [takeBefore, hnp, ih]

theorem splitWs_ws_cons {c : Char} (u : Str) (h : isWs c = true) :
    pySplitWs (c :: u) = pySplitWs u := by
  cases u <;> simp [pySplitWs, h]

theorem splitWs_of_noWs : ∀ t : Str, t ≠ [] → (∀ c ∈ t, isWs c = false) →
    pySplitWs t = [t]
  | [], h, _ => absurd rfl h
  | [c], _, hws => by simp [pySplitWs, hws c (by simp)]
  | c :: d :: cs, _, hws => by
    have hd := splitWs_of_noWs (d :: cs) (by simp)
      (fun x hx => hws x (List.mem_cons_of_mem _ hx))
    simp [pySplitWs, hws c (by simp), hws d (by simp), hd]

theorem splitWs_token_append : ∀ t u : Str, t ≠ [] → (∀ c ∈ t, isWs c = false) →
    pySplitWs (t ++ ' ' :: u) = t :: pySplitWs u
  | [], _, h, _ => absurd rfl h
  | [c], u, _, hws => by
    have h5 : pySplitWs (' ' :: u) = pySplitWs u := splitWs_ws_cons u (by decide)
    cases hr : pySplitWs u with
    | nil => simp [pySplitWs, hws c (by simp), h5, hr, show isWs ' ' = true from by decide]
    | cons t0 ts =>
      simp [pySplitWs, hws c (by simp), h5, hr, show isWs ' ' = true from by decide]
  | c :: c2 :: t', u, _, hws => by
    have ih := splitWs_token_append (c2 :: t') u (by simp)
      (fun x hx => hws x (List.mem_cons_of_mem _ hx))
    simp only [List.cons_append] at ih ⊢
    simp [pySplitWs, hws c (by simp), hws c2 (by simp), ih]

theorem splitWs_tokens : ∀ s : Str, ∀ t ∈ pySplitWs s, t ≠ [] ∧ ∀ c ∈ t, isWs c = false
  | [] => by simp [pySplitWs]
  | [c] => by
    by_cases h : isWs c <;> simp [pySplitWs, h]
  | c :: d :: cs => by
    have ih := splitWs_tokens (d :: cs)
    by_cases h : isWs c
    · simpa [pySplitWs, h] using ih
    · cases hr : pySplitWs (d :: cs) with
      | nil =>
        simp [pySplitWs, h, hr]
      | cons t0 ts =>
        have ht0 := ih t0 (by rw [hr]; exact List.mem_cons_self _ _)
        have hts := fun t ht => ih t (by rw [hr]; exact List.mem_cons_of_mem _ ht)
        by_cases hd : isWs d
        · intro t ht
          simp only [pySplitWs, h, if_false, hr, hd, if_true] at ht
          rcases List.mem_cons.mp ht with h1 | h1
          · subst h1
            exact ⟨by simp, by simpa using h⟩
          · rcases List.mem_cons.mp h1 with h2 | h2
            · subst h2; exact ht0
            · exact hts t h2
        · intro t ht
          simp only [pySplitWs, h, if_false, hr, hd] at ht
          rcases List.mem_cons.mp ht with h1 | h1
          · subst h1
            refine ⟨by simp, ?_⟩
            intro x hx
            rcases List.mem_cons.mp hx with h2 | h2
            · subst h2; simpa using h
            · exact ht0.2 x h2
          · exact hts t h1

theorem splitWs_joinSpace : ∀ ts : List Str,
    (∀ t ∈ ts, t ≠ [] ∧ ∀ c ∈ t, isWs c = false) → pySplitWs (joinSpace ts) = ts
  | [], _ => rfl
  | [t], h => by
    have ht := h t (by simp)
    simpa [joinSpace] using splitWs_of_noWs t ht.1 ht.2
  | t :: t2 :: rest, h => by
    have h1 := h t (by simp)
    have h2 := fun x hx => h x (List.mem_cons_of_mem _ hx)
    rw [show joinSpace (t :: t2 :: rest) = t ++ ' ' :: joinSpace (t2 :: rest) from rfl]
    rw [splitWs_token_append t _ h1.1 h1.2, splitWs_joinSpace (t2 :: rest) h2]

/-! ## Claim theorems -/

/-- C1 counterexample: the claim predicts that the malformed pair (id
token `"1x"`) of `badIdReport` is dropped, the good pair still built and
no exception surfaces; in fact the unguarded `int(tokens0[0])` raises,
modelled by `none` — while the good pair alone parses fine. -/
theorem c1_counterexample :
    parseDeviceSection badIdReport = none ∧
      (parseDeviceSection goodPairReport).map List.length = some 1 := by decide

/-- C1 amended: a candidate device line pair whose line A first segment
leading whitespace token does not parse as an integer makes the whole of
`parse_device_section` raise (modelled by `none`): the exception
surfaces past the builder and no other pair of the input is built. -/
theorem c1_amended_raises (output l1 l2 t : Str)
    (hmem : (l1, l2) ∈ pairUp (dataLines output))
    (htok : firstIdToken l1 = some t) (hint : pyInt? t = none) :
    parseDeviceSection output = none := by
  have hpair : parseDevicePair l1 l2 = none := by
    unfold firstIdToken at htok
    cases hf0 : (pyFields l1)[0]? with
    | none => rw [hf0] at htok; cases htok
    | some f0 =>
      rw [hf0] at htok
      have htok' : (pySplitWs f0)[0]? = some t := htok
      simp only [parseDevicePair, parseLine1, hf0, htok', hint]
  exact mapOpt_eq_none_of_mem hmem hpair

/-- C1 witness: the amended claim at the concrete `badIdReport`. -/
theorem c1_witness : parseDeviceSection badIdReport = none :=
  c1_amended_raises badIdReport ("| 1x | OK | 1.0 2 |".toList) ("| 1 | d | 0 |".toList)
    ("1x".toList) (by decide) (by decide) (by decide)

/-- C2 counterexample: the claim says the engine never raises for
malformed input shape; but on a paired candidate line with a single
segment the unguarded `fields1[1]` raises `IndexError`, modelled by
`none`. -/
theorem c2_counterexample : parseDeviceSection shortFieldsReport = none := by decide

/-- C2 amended: `parse_process_section` never raises (it is embedded as
a total function because the source guards every parse there), but
`parse_device_section` is not total: there is an input report on which
it raises while the process parser degrades to the empty map. -/
theorem c2_amended_not_total :
    ∃ output : Str, parseDeviceSection output = none ∧ parseProcessSection output = [] :=
  ⟨shortFieldsReport, by decide, by decide⟩

/-- C3: glued-token recovery.  A line B whose third segment is
`"0 0 / 0 30431/ 32768"` and one whose third segment is
`"0 0 / 0 30431 / 32768"` parse to identical records with
hbmUsed = 30431 and hbmTotal = 32768; in general every raw token ending
in `'/'` with length > 1 is split in place into its part before the
slash followed by `"/"` before positional extraction. -/
theorem c3_glued_token_recovery :
    ((pyFields gluedLineB1).getD 2 [] = "0 0 / 0 30431/ 32768".toList ∧
     (pyFields gluedLineB2).getD 2 [] = "0 0 / 0 30431 / 32768".toList ∧
     parseDevicePair gluedLineA gluedLineB1 = parseDevicePair gluedLineA gluedLineB2 ∧
     ∃ r, parseDevicePair gluedLineA gluedLineB1 = some r ∧
       r.hbm_used = 30431 ∧ r.hbm_total = 32768) ∧
    ∀ (pre post : List Str) (t : Str), t.getLast? = some '/' → 1 < t.length →
      fixTokens (pre ++ t :: post) = fixTokens pre ++ [t.dropLast, ['/']] ++ fixTokens post := by
  constructor
  · decide
  · intro pre post t h1 h2
    have hone : fixOne t = [t.dropLast, ['/']] := by simp [fixOne, h1, h2]
    simp [fixTokens, hone]

/-- C3 witness: the general token-splitting law at `"30431/"`. -/
theorem c3_witness :
    fixTokens ([] ++ "30431/".toList :: []) =
      fixTokens [] ++ ["30431/".toList.dropLast, ['/']] ++ fixTokens [] :=
  c3_glued_token_recovery.2 [] [] ("30431/".toList) (by decide) (by decide)

/-- C5: idle sentinel.  A process section containing only the sentinel
row for NPU 2 yields the map `[(2, [])]` and no other entry; in general
processing a sentinel line for id `n` sets (overwrites, never appends)
that id's entry to the empty sequence, whatever the map held before. -/
theorem c5_idle_sentinel :
    parseProcessSection sentinelReport = [(2, [])] ∧
    ∀ (m : PMap) (line : Str) (n : Int),
      npuNoProcPat.isPrefixOf (contentOf line) = true →
      sentinelFind (contentOf line) = some n →
      lookupA n (procStep m line) = some [] := by
  constructor
  · decide
  · intro m line n h1 h2
    simp only [procStep, h1, h2, if_true]
    exact lookupA_setEntry_self m n []

/-- C5 witness: the sentinel row for NPU 2 over an arbitrary prior map
(here the empty one). -/
theorem c5_witness :
    lookupA 2 (procStep [] ("| No running processes found in NPU 2 |".toList)) = some [] :=
  c5_idle_sentinel.2 [] ("| No running processes found in NPU 2 |".toList) 2
    (by decide) (by decide)

/-- C6: odd-line drop.  Candidate data lines are consumed two at a time:
whenever `parse_device_section` returns, the number of records is the
number of candidate lines divided by two (trailing odd line dropped
silently); concretely, a section with 3 candidate data lines yields
exactly 1 record. -/
theorem c6_odd_line_drop :
    (∀ (output : Str) (ds : List DeviceRecord), parseDeviceSection output = some ds →
      ds.length = (dataLines output).length / 2) ∧
    (parseDeviceSection threeLineReport).map List.length = some 1 ∧
    (dataLines threeLineReport).length = 3 := by
  refine ⟨?_, by decide, by decide⟩
  intro output ds h
  unfold parseDeviceSection at h
  rw [mapOpt_length h, pairUp_length]

/-- C6 witness: the pairing law at the concrete three-line section. -/
theorem c6_witness : [oddRec].length = (dataLines threeLineReport).length / 2 :=
  c6_odd_line_drop.1 threeLineReport [oddRec] (by decide)

/-- C8: process-row handling.  For a collected in-table line that is not
a sentinel and splits into at least 4 non-empty segments: if the first
whitespace token of segment 1 does not parse as an integer the row is
skipped (map unchanged); otherwise a record is appended at the end of
that device's list, with the pid kept verbatim as the segment-2 string,
the name from segment 3, and the memory field defaulting to 0 when
segment 4 fails integer parsing. -/
theorem c8_process_row :
    ∀ (m : PMap) (line : Str) (n : Int),
      npuNoProcPat.isPrefixOf (contentOf line) = false →
      4 ≤ (pyFields line).length →
      ((pyInt? ((pySplitWs ((pyFields line).getD 0 [])).getD 0 []) = none →
          procStep m line = m) ∧
       (pyInt? ((pySplitWs ((pyFields line).getD 0 [])).getD 0 []) = some n →
          lookupA n (procStep m line) =
            some ((lookupA n m).getD [] ++
              [⟨(pyFields line).getD 1 [], (pyFields line).getD 2 [],
                (pyInt? ((pyFields line).getD 3 [])).getD 0⟩]))) := by
  intro m line n hsent hlen
  have hnotlt : ¬ (pyFields line).length < 4 := by omega
  constructor
  · intro h
    simp only [procStep, hsent, Bool.false_eq_true, if_false, if_neg hnotlt, h]
  · intro h
    simp only [procStep, hsent, Bool.false_eq_true, if_false, if_neg hnotlt, h]
    exact lookupA_setdefaultAppend_self m n _

/-- C8 witness: the row `procRowLine` for device 0 over the empty map. -/
theorem c8_witness :
    lookupA 0 (procStep [] procRowLine) =
      some ((lookupA 0 ([] : PMap)).getD [] ++
        [⟨"2488494".toList, "python3.9".toList, (99 : Int)⟩]) :=
  (c8_process_row [] procRowLine 0 (by decide) (by decide)).2 (by decide)

/-- C9: marker asymmetry.  The device section ends at the first
occurrence of `"Process id"` (parsing the text cut there gives the same
devices as parsing the whole report); a line containing `"Process id"`
but not `"Process memory(MB)"` never switches the process builder into
the in-table state, and a report none of whose lines carries the full
header yields the empty process map; concretely, `asymReport` has four
candidate-shaped lines but yields one device and an empty process
map. -/
theorem c9_marker_asymmetry :
    (∀ output : Str,
      parseDeviceSection (takeBefore pidMarker output) = parseDeviceSection output) ∧
    (∀ (l : Str) (ls : List Str), containsSub memMarker l = false →
      collectProcessLines false (l :: ls) = collectProcessLines false ls) ∧
    (∀ output : Str, (∀ l ∈ pySplitlines output, containsSub memMarker l = false) →
      parseProcessSection output = []) ∧
    (((pySplitlines asymReport).filter isCandidate).length = 4 ∧
      (parseDeviceSection asymReport).map List.length = some 1 ∧
      parseProcessSection asymReport = []) := by
  have hcollect : ∀ lines : List Str, (∀ l ∈ lines, containsSub memMarker l = false) →
      collectProcessLines false lines = [] := by
    intro lines h
    induction lines with
    | nil => rfl
    | cons l ls ih =>
      have hbm : bothMarkers l = false := by
        simp [bothMarkers, h l (List.mem_cons_self _ _)]
      simp only [collectProcessLines, hbm, Bool.false_eq_true, if_false]
      exact ih (fun x hx => h x (List.mem_cons_of_mem _ hx))
  refine ⟨?_, ?_, ?_, by decide, by decide, by decide⟩
  · intro output
    unfold parseDeviceSection dataLines
    rw [takeBefore_idem]
  · intro l ls h
    have hbm : bothMarkers l = false := by simp [bothMarkers, h]
    simp [collectProcessLines, hbm]
  · intro output h
    unfold parseProcessSection
    rw [hcollect _ h]
    rfl

/-- C9 witness: the general parts at the concrete `asymReport` and its
marker line. -/
theorem c9_witness :
    parseProcessSection asymReport = [] ∧
    collectProcessLines false ("Process id stuff".toList :: []) =
      collectProcessLines false [] :=
  ⟨c9_marker_asymmetry.2.2.1 asymReport (by decide),
   c9_marker_asymmetry.2.1 ("Process id stuff".toList) [] (by decide)⟩

/-- The name assigned by line-A extraction, as a function of the first
segment's token list: `" ".join(tokens0[1:])` when there is more than
one token, else the empty string. -/
theorem parseLine1_name (l1 : Str) (a : Line1Data) (f0 : Str)
    (h : parseLine1 l1 = some a) (hf0 : (pyFields l1)[0]? = some f0) :
    a.name = joinSpace ((pySplitWs f0).drop 1) := by
  simp only [parseLine1, hf0] at h
  cases ht0 : (pySplitWs f0)[0]? with
  | none => simp [ht0] at h
  | some t0 =>
    simp only [ht0] at h
    cases hi : pyInt? t0 with
    | none => simp [hi] at h
    | some npu_id =>
      simp only [hi] at h
      cases h1 : (pyFields l1)[1]? with
      | none => simp [h1] at h
      | some health =>
        simp only [h1] at h
        cases h2 : (pyFields l1)[2]? with
        | none => simp [h2] at h
        | some f2 =>
          simp only [h2] at h
          cases hp : powerOf (pySplitWs f2) with
          | none => simp [hp] at h
          | some power =>
            simp only [hp] at h
            cases htm : tempOf (pySplitWs f2) with
            | none => simp [htm] at h
            | some temp =>
              simp only [htm, Option.some.injEq] at h
              subst h
              by_cases hlen : 1 < (pySplitWs f0).length
              · simp [hlen]
              · have hdrop : (pySplitWs f0).drop 1 = [] :=
                  List.drop_eq_nil_of_le (by omega)
                simp [hlen, hdrop, joinSpace]

/-- C10: device-name normalization.  For every successfully built
device pair, the record's name is the whitespace tokens of line A's
first segment after the id, joined by single spaces (so splitting the
name on whitespace returns exactly those tokens — internal whitespace
runs are collapsed), and the name is empty when the segment holds only
the id token. -/
theorem c10_name_normalization (l1 l2 : Str) (r : DeviceRecord) (f0 : Str)
    (h : parseDevicePair l1 l2 = some r) (hf0 : (pyFields l1)[0]? = some f0) :
    r.name = joinSpace ((pySplitWs f0).drop 1) ∧
    pySplitWs r.name = (pySplitWs f0).drop 1 ∧
    ((pySplitWs f0).length ≤ 1 → r.name = []) := by
  have hname : r.name = joinSpace ((pySplitWs f0).drop 1) := by
    unfold parseDevicePair at h
    cases ha : parseLine1 l1 with
    | none => simp [ha] at h
    | some a =>
      simp only [ha] at h
      cases hb : parseLine2 l2 with
      | none => simp [hb] at h
      | some b =>
        simp only [hb, Option.some.injEq] at h
        subst h
        exact parseLine1_name l1 a f0 ha hf0
  refine ⟨hname, ?_, ?_⟩
  · rw [hname]
    exact splitWs_joinSpace _
      (fun t ht => splitWs_tokens f0 t (List.mem_of_mem_drop ht))
  · intro hlen
    rw [hname, List.drop_eq_nil_of_le hlen]
    rfl

/-- C10 witness: the worked-example pair, whose line A first segment is
`"0     910B4"` (a run of five spaces collapsed away). -/
theorem c10_witness :
    exRecord.name = joinSpace ((pySplitWs ("0     910B4".toList)).drop 1) ∧
    pySplitWs exRecord.name = (pySplitWs ("0     910B4".toList)).drop 1 ∧
    ((pySplitWs ("0     910B4".toList)).length ≤ 1 → exRecord.name = []) :=
  c10_name_normalization exLineA exLineB exRecord ("0     910B4".toList)
    (by decide) (by decide)

/-- C4: the worked example holds: feeding the spec's concrete line A and
line B through the Device Record Builder yields exactly one record with
id 0, name "910B4", health "OK", power 88.2, temperature 39,
hugepagesUsed 0, hugepagesTotal 0, chipId "0", busId "0000:C1:00.0",
aiCoreUtilization 0, memoryUsed 0, memoryTotal 0, hbmUsed 3043,
hbmTotal 32768. -/
theorem c4_worked_example :
    parseDeviceSection exReport = some [exRecord] ∧ exRecord.power = 88.2 := by
  constructor
  · decide
  · show mkRat 441 5 = 88.2
    rw [show (88.2 : ℚ) = Rat.ofScientific 882 true 1 from rfl, Rat.ofScientific_true_def]
    decide

/-- C7: for the empty report string, `parse_device_section` returns the
empty device list and `parse_process_section` returns the empty map,
without raising. -/
theorem c7_empty_input :
    parseDeviceSection [] = some [] ∧ parseProcessSection [] = [] := by decide

end Nputop
